import Mathlib

/-!
# Verification of the cell reconciliation/lifecycle manager

Shallow embedding of `src/web/static/js/cell.js`: the `Builder` singleton
(registry + reconciler) and the `Cell` base class.

Modelling conventions:
* A document-tree node is identified by a `Nat` id; reference identity
  (`===` in the source) is equality of ids.  An `Elem` records the node id
  together with its `data-cell` and `data-cell-params` attributes
  (`element.dataset.cell`, `element.dataset.cellParams`); a missing
  attribute is `none`.
* A `Cell` instance carries an object identity `ref : Nat`, allocated from a
  fresh counter at construction time (`new` in the source always yields a
  distinct object).  Its `element` field is `Option Nat` because
  `Cell.destroy` sets `this.element = null`.
* `JSON.parse` is a parameter `parse : String → Option Json`: `some` models
  a successful parse, `none` a `SyntaxError`.  A missing
  `data-cell-params` attribute means `JSON.parse(undefined)`, i.e.
  `JSON.parse("undefined")`, which always throws, so it is a parse error
  regardless of `parse`.
* Exceptions are modelled with `Except CellError`.  Hook invocations
  (`onReload` / `onDestroy`) and constructions are recorded in an `Event`
  log, in execution order.
-/

/-- Structured configuration data, the result of `JSON.parse`. -/
inductive Json where
  | null : Json
  | bool (b : Bool) : Json
  | num (n : Int) : Json
  | str (s : String) : Json
  | arr (items : List Json) : Json
  | obj (fields : List (String × Json)) : Json
deriving Repr

/-- A document-tree element carrying the `data-cell` marker attribute.
`id` is the node's reference identity. -/
structure Elem where
  id : Nat
  dataCell : String
  dataCellParams : Option String
deriving DecidableEq, Repr

/-- A registered cell class: `name` is the JavaScript constructor's `name`
property; `ctorId` distinguishes distinct constructor objects that happen
to share a `name`. -/
structure CellClass where
  name : String
  ctorId : Nat
deriving DecidableEq, Repr

/-- Errors thrown during a pass. -/
inductive CellError where
  /-- `throw new Error(...)` at cell.js line 85: the `data-cell` name has no
  registered class; carries the offending name. -/
  | unknownCellType (name : String) : CellError
  /-- `JSON.parse` threw in the `Cell` constructor (missing or malformed
  `data-cell-params`); carries the element id. -/
  | configParse (elemId : Nat) : CellError
  /-- The `return cell` statement at cell.js line 91 references an unbound
  identifier and would throw a `ReferenceError` if reached. -/
  | referenceError : CellError
deriving DecidableEq, Repr

/-- Observable side effects of a pass, in execution order. -/
inductive Event where
  /-- `foundCell.reload(element)`: the reload hook of instance `cellRef`
  invoked with element `elemId`. -/
  | reloadHook (cellRef : Nat) (elemId : Nat) : Event
  /-- `cell.destroy(...)`: the destroy hook of instance `cellRef` invoked
  with argument `arg` (`none` = called with no argument). -/
  | destroyHook (cellRef : Nat) (arg : Option Nat) : Event
  /-- `new (cellConstructor)(element)`: instance `cellRef` constructed for
  element `elemId`. -/
  | construct (cellRef : Nat) (elemId : Nat) : Event
deriving DecidableEq, Repr

/-- A live `Cell` instance (cell.js lines 113-125).  `ref` is the object's
identity; `element` is `none` after `destroy` nulls it. -/
structure Cell where
  ref : Nat
  element : Option Nat
  name : String
  params : Json
deriving Repr

/-- `Cell` constructor (cell.js lines 121-125):
`this.element = element; this.name = this.constructor.name;
this.params = JSON.parse(element.dataset.cellParams)`.
A missing `data-cell-params` attribute makes `JSON.parse(undefined)`
throw, hence the `none` case errors unconditionally. -/
def Cell.construct (parse : String → Option Json) (ctor : CellClass)
    (element : Elem) (ref : Nat) : Except CellError Cell :=
  match element.dataCellParams with
  | none => .error (.configParse element.id)
  | some s =>
    match parse s with
    | none => .error (.configParse element.id)
    | some v => .ok { ref := ref, element := some element.id, name := ctor.name, params := v }

/-- `Cell.destroy` (cell.js lines 139-145), with the optional subclass
`onDestroy` hook as an explicit parameter (`none` models an undefined
hook).  `this.element = null`, then `this.onDestroy && this.onDestroy(element)`,
then `return element`.  Returns the post-hook instance and the return value. -/
def Cell.destroy (onDestroy : Option (Option Nat → Cell → Cell))
    (self : Cell) (element : Option Nat) : Cell × Option Nat :=
  let self1 := { self with element := none }
  match onDestroy with
  | none => (self1, element)
  | some hook => (hook element self1, element)

/-- `Cell.reload` (cell.js lines 153-157):
`this.onReload && this.onReload(element); return element`. -/
def Cell.reloadHook (onReload : Option (Option Nat → Cell → Cell))
    (self : Cell) (element : Option Nat) : Cell × Option Nat :=
  match onReload with
  | none => (self, element)
  | some hook => (hook element self, element)

namespace Builder

/-- `Builder.register` (cell.js lines 24-32): `availableCells[cellName]`
is a string-keyed table; if the name is already bound the call returns
without modifying the table, otherwise it binds the name. -/
def register (availableCells : List (String × CellClass)) (cell : CellClass) :
    List (String × CellClass) :=
  let cellName := cell.name
  match List.lookup cellName availableCells with
  | some _ => availableCells
  | none => availableCells ++ [(cellName, cell)]

/-- `Builder.findByElement` (cell.js lines 105-107): the body evaluates
`(cells || this.activeCells).find(cell => cell.element === element)` but
the function has no `return` statement, so the call expression always
evaluates to `undefined` (`none`). -/
def findByElement (element : Option Nat) (cells : List Cell) : Option Cell :=
  let _ := cells.find? fun cell => cell.element == element
  none

/-- One iteration of the `[].map.call(document.querySelectorAll(...), ...)`
callback in `Builder.findAndBuild` (cell.js lines 79-95), for element `e`:
read `element.dataset.cell`, look the class up in `availableCells`, probe
`findByElement(element)` against `activeCells`, throw if the class is
missing, take the reuse branch if a cell was found — its reload hook fires
and then `return cell` throws a `ReferenceError` — otherwise construct a
new instance with identity `fresh`. -/
def findAndBuildStep (availableCells : List (String × CellClass))
    (activeCells : List Cell) (parse : String → Option Json) (fresh : Nat)
    (e : Elem) : Except CellError Cell × List Event :=
  let cellName := e.dataCell
  let cellConstructor := List.lookup cellName availableCells
  let foundCell := findByElement (some e.id) activeCells
  match cellConstructor with
  | none => (.error (.unknownCellType cellName), [])
  | some ctor =>
    match foundCell with
    | some fc => (.error .referenceError, [.reloadHook fc.ref e.id])
    | none =>
      match Cell.construct parse ctor e fresh with
      | .error err => (.error err, [])
      | .ok c => (.ok c, [.construct c.ref e.id])

/-- `Builder.findAndBuild` (cell.js lines 76-96): map the step over the
marker elements in document order, eagerly left to right; a throw aborts
the map, keeping the events of the earlier iterations.  Also threads the
fresh-identity counter and returns it. -/
def findAndBuild (availableCells : List (String × CellClass))
    (activeCells : List Cell) (parse : String → Option Json) :
    Nat → List Elem → Except CellError (List Cell) × Nat × List Event
  | fresh, [] => (.ok [], fresh, [])
  | fresh, e :: rest =>
    match findAndBuildStep availableCells activeCells parse fresh e with
    | (.error err, evs) => (.error err, fresh, evs)
    | (.ok c, evs) =>
      match findAndBuild availableCells activeCells parse (fresh + 1) rest with
      | (.error err, fresh1, evs1) => (.error err, fresh1, evs ++ evs1)
      | (.ok cs, fresh1, evs1) => (.ok (c :: cs), fresh1, evs ++ evs1)

/-- `Builder.destroyOrphans` (cell.js lines 59-69): filter `activeCells`,
destroying (hook invoked with no argument: `cell.destroy()`) and dropping
every cell for which `findByElement(cell.element, found)` is falsy.
Returns the kept cells (the source discards this value) and the events. -/
def destroyOrphans (activeCells found : List Cell) : List Cell × List Event :=
  match activeCells with
  | [] => ([], [])
  | cell :: rest =>
    let (kept, evs) := destroyOrphans rest found
    match findByElement cell.element found with
    | none => (kept, .destroyHook cell.ref none :: evs)
    | some _ => (cell :: kept, evs)

/-- The Builder singleton's mutable state: `activeCells`, `availableCells`,
and the allocator for fresh object identities. -/
structure State where
  activeCells : List Cell
  availableCells : List (String × CellClass)
  fresh : Nat
deriving Repr

/-- `Builder.reload` (cell.js lines 45-51):
`const found = this.findAndBuild(); this.destroyOrphans(found);
this.activeCells = found;`.  On a throw inside `findAndBuild` the
remaining statements do not execute, so the previous `activeCells`
survives; instances already constructed in the aborted pass are
unreferenced (their events remain in the log). -/
def reload (st : State) (doc : List Elem) (parse : String → Option Json) :
    Except CellError Unit × State × List Event :=
  match findAndBuild st.availableCells st.activeCells parse st.fresh doc with
  | (.error err, fresh1, evs) => (.error err, { st with fresh := fresh1 }, evs)
  | (.ok found, fresh1, evs) =>
    let (_, devs) := destroyOrphans st.activeCells found
    (.ok (), { st with activeCells := found, fresh := fresh1 }, evs ++ devs)

/-- `Builder.initialize` (cell.js lines 37-39): the body is `this.reload()`. -/
def initCells (st : State) (doc : List Elem) (parse : String → Option Json) :
    Except CellError Unit × State × List Event :=
  reload st doc parse

/-- An element on which `findAndBuild` makes progress: its type name is
registered and its configuration attribute is present and parses. -/
def elemOk (avail : List (String × CellClass)) (parse : String → Option Json)
    (e : Elem) : Prop :=
  (List.lookup e.dataCell avail).isSome ∧
  ∃ s, e.dataCellParams = some s ∧ (parse s).isSome

end Builder

/-- A concrete registered class used in concrete scenarios. -/
def fooClass : CellClass := { name := "Foo", ctorId := 0 }

/-- A second concrete registered class used in concrete scenarios. -/
def barClass : CellClass := { name := "Bar", ctorId := 1 }

/-- A concrete stand-in for `JSON.parse` used in concrete scenarios: the
string `"null"` parses to the JSON null value, everything else is a parse
error. -/
def parseStub : String → Option Json := fun s =>
  if s = "null" then some Json.null else none

namespace Builder

theorem findByElement_none (element : Option Nat) (cells : List Cell) :
    findByElement element cells = none := rfl

theorem findAndBuildStep_eq (avail : List (String × CellClass)) (active : List Cell)
    (parse : String → Option Json) (fresh : Nat) (e : Elem) :
    findAndBuildStep avail active parse fresh e =
      match List.lookup e.dataCell avail with
      | none => (.error (.unknownCellType e.dataCell), [])
      | some ctor =>
        match Cell.construct parse ctor e fresh with
        | .error err => (.error err, [])
        | .ok c => (.ok c, [.construct c.ref e.id]) := rfl

theorem construct_ok (parse : String → Option Json) (ctor : CellClass) (e : Elem)
    (fresh : Nat) (c : Cell) (h : Cell.construct parse ctor e fresh = .ok c) :
    c.element = some e.id ∧ c.ref = fresh := by
  unfold Cell.construct at h
  split at h
  · simp at h
  · split at h
    · simp at h
    · simp only [Except.ok.injEq] at h
      subst h
      exact ⟨rfl, rfl⟩

theorem findAndBuildStep_ok (avail : List (String × CellClass)) (active : List Cell)
    (parse : String → Option Json) (fresh : Nat) (e : Elem) (c : Cell) (evs : List Event)
    (h : findAndBuildStep avail active parse fresh e = (.ok c, evs)) :
    c.element = some e.id ∧ c.ref = fresh ∧ evs = [.construct c.ref e.id] := by
  rw [findAndBuildStep_eq] at h
  split at h
  · simp at h
  · split at h
    · simp at h
    · next c0 hc =>
      simp only [Prod.mk.injEq, Except.ok.injEq] at h
      obtain ⟨h1, h2⟩ := h
      subst h1
      subst h2
      obtain ⟨he, hr⟩ := construct_ok _ _ _ _ _ hc
      exact ⟨he, hr, rfl⟩

theorem findAndBuildStep_error (avail : List (String × CellClass)) (active : List Cell)
    (parse : String → Option Json) (fresh : Nat) (e : Elem) (err : CellError) (evs : List Event)
    (h : findAndBuildStep avail active parse fresh e = (.error err, evs)) :
    evs = [] := by
  rw [findAndBuildStep_eq] at h
  split at h
  · simp only [Prod.mk.injEq] at h
    exact h.2.symm
  · split at h
    · simp only [Prod.mk.injEq] at h
      exact h.2.symm
    · simp at h

theorem findAndBuild_ok (avail : List (String × CellClass)) (active : List Cell)
    (parse : String → Option Json) :
    ∀ (doc : List Elem) (fresh : Nat) (found : List Cell) (fresh1 : Nat) (evs : List Event),
    findAndBuild avail active parse fresh doc = (.ok found, fresh1, evs) →
    found.map (fun c => c.element) = doc.map (fun e => some e.id) ∧
    found.map (fun c => c.ref) = List.range' fresh doc.length ∧
    fresh1 = fresh + doc.length := by
  intro doc
  induction doc with
  | nil =>
    intro fresh found fresh1 evs h
    simp only [findAndBuild, Prod.mk.injEq, Except.ok.injEq] at h
    obtain ⟨h1, h2, _⟩ := h
    subst h1
    subst h2
    simp [List.range']
  | cons e rest ih =>
    intro fresh found fresh1 evs h
    rw [findAndBuild] at h
    rcases hstep : findAndBuildStep avail active parse fresh e with ⟨r, evs0⟩
    rw [hstep] at h
    cases r with
    | error err => simp at h
    | ok c =>
      rcases hrec : findAndBuild avail active parse (fresh + 1) rest with ⟨r2, fresh2, evs2⟩
      rw [hrec] at h
      cases r2 with
      | error err => simp at h
      | ok cs =>
        simp only [Prod.mk.injEq, Except.ok.injEq] at h
        obtain ⟨h1, h2, _⟩ := h
        subst h1
        subst h2
        obtain ⟨he, hr, _⟩ := findAndBuildStep_ok avail active parse fresh e c evs0 hstep
        obtain ⟨ih1, ih2, ih3⟩ := ih (fresh + 1) cs fresh2 evs2 hrec
        refine ⟨?_, ?_, ?_⟩
        · simp [he, ih1]
        · simp [hr, ih2, List.range'_succ]
        · simp [ih3]
          omega

theorem findAndBuild_events_construct (avail : List (String × CellClass)) (active : List Cell)
    (parse : String → Option Json) :
    ∀ (doc : List Elem) (fresh : Nat) (ev : Event),
    ev ∈ (findAndBuild avail active parse fresh doc).2.2 → ∃ r i, ev = .construct r i := by
  intro doc
  induction doc with
  | nil => intro fresh ev h; simp [findAndBuild] at h
  | cons e rest ih =>
    intro fresh ev h
    rw [findAndBuild] at h
    rcases hstep : findAndBuildStep avail active parse fresh e with ⟨r, evs0⟩
    rw [hstep] at h
    cases r with
    | error err =>
      rw [findAndBuildStep_error avail active parse fresh e err evs0 hstep] at h
      simp at h
    | ok c =>
      obtain ⟨_, _, hevs⟩ := findAndBuildStep_ok avail active parse fresh e c evs0 hstep
      subst hevs
      rcases hrec : findAndBuild avail active parse (fresh + 1) rest with ⟨r2, fresh2, evs2⟩
      rw [hrec] at h
      have hm : ev = Event.construct c.ref e.id ∨ ev ∈ evs2 := by
        cases r2 with
        | error err => simpa using h
        | ok cs => simpa using h
      rcases hm with hm | hm
      · exact ⟨c.ref, e.id, hm⟩
      · have hmem := ih (fresh + 1) ev
        rw [hrec] at hmem
        exact hmem hm

theorem destroyOrphans_eq (activeCells found : List Cell) :
    destroyOrphans activeCells found =
      ([], activeCells.map fun c => .destroyHook c.ref none) := by
  induction activeCells with
  | nil => rfl
  | cons c rest ih => simp [destroyOrphans, ih, findByElement_none]

theorem reload_ok (st : State) (doc : List Elem) (parse : String → Option Json)
    (st1 : State) (evs : List Event) (h : reload st doc parse = (.ok (), st1, evs)) :
    ∃ found fresh1 cevs,
      findAndBuild st.availableCells st.activeCells parse st.fresh doc = (.ok found, fresh1, cevs) ∧
      st1 = { st with activeCells := found, fresh := fresh1 } ∧
      evs = cevs ++ st.activeCells.map (fun c => .destroyHook c.ref none) := by
  unfold reload at h
  rcases hf : findAndBuild st.availableCells st.activeCells parse st.fresh doc with ⟨r, fresh1, cevs⟩
  rw [hf] at h
  cases r with
  | error err => dsimp only at h; simp at h
  | ok found =>
    dsimp only at h
    rw [destroyOrphans_eq] at h
    dsimp only at h
    simp only [Prod.mk.injEq] at h
    exact ⟨found, fresh1, cevs, rfl, h.2.1.symm, h.2.2.symm⟩

theorem reload_error (st : State) (doc : List Elem) (parse : String → Option Json)
    (err : CellError) (st1 : State) (evs : List Event)
    (h : reload st doc parse = (.error err, st1, evs)) :
    st1.activeCells = st.activeCells ∧
    evs = (findAndBuild st.availableCells st.activeCells parse st.fresh doc).2.2 := by
  unfold reload at h
  rcases hf : findAndBuild st.availableCells st.activeCells parse st.fresh doc with ⟨r, fresh1, cevs⟩
  rw [hf] at h
  cases r with
  | error err0 =>
    dsimp only at h
    simp only [Prod.mk.injEq] at h
    obtain ⟨_, h2, h3⟩ := h
    constructor
    · rw [← h2]
    · rw [← h3]
  | ok found =>
    dsimp only at h
    rw [destroyOrphans_eq] at h
    dsimp only at h
    simp at h

theorem reload_error_of_findAndBuild (st : State) (doc : List Elem)
    (parse : String → Option Json) (err : CellError)
    (h : (findAndBuild st.availableCells st.activeCells parse st.fresh doc).1 = .error err) :
    (reload st doc parse).1 = .error err := by
  unfold reload
  rcases hf : findAndBuild st.availableCells st.activeCells parse st.fresh doc with ⟨r, fresh1, cevs⟩
  rw [hf] at h
  cases r with
  | error err0 => simp at h; subst h; rfl
  | ok found => simp at h

theorem lookup_append_of_some {n : String} {l1 l2 : List (String × CellClass)} {c : CellClass}
    (h : List.lookup n l1 = some c) : List.lookup n (l1 ++ l2) = some c := by
  induction l1 with
  | nil => simp [List.lookup] at h
  | cons p rest ih =>
    rcases p with ⟨a, b⟩
    by_cases hn : (n == a) = true
    · simp [List.lookup, hn] at h ⊢
      exact h
    · have hn1 : (n == a) = false := by simpa using hn
      simp only [List.cons_append, List.lookup, hn1] at h ⊢
      exact ih h

theorem lookup_append_of_none {n : String} {l1 l2 : List (String × CellClass)}
    (h : List.lookup n l1 = none) : List.lookup n (l1 ++ l2) = List.lookup n l2 := by
  induction l1 with
  | nil => simp
  | cons p rest ih =>
    rcases p with ⟨a, b⟩
    by_cases hn : (n == a) = true
    · simp [List.lookup, hn] at h
    · have hn1 : (n == a) = false := by simpa using hn
      simp only [List.cons_append, List.lookup, hn1] at h ⊢
      exact ih h

theorem register_of_absent (avail : List (String × CellClass)) (c : CellClass)
    (h : List.lookup c.name avail = none) :
    register avail c = avail ++ [(c.name, c)] := by
  simp [register, h]

theorem register_of_present (avail : List (String × CellClass)) (c : CellClass)
    (h : (List.lookup c.name avail).isSome) :
    register avail c = avail := by
  cases hl : List.lookup c.name avail with
  | none => rw [hl] at h; simp at h
  | some c0 => simp [register, hl]

theorem lookup_register_preserved (avail : List (String × CellClass)) (c0 c1 : CellClass)
    (n : String) (h : List.lookup n avail = some c0) :
    List.lookup n (register avail c1) = some c0 := by
  cases hl : List.lookup c1.name avail with
  | some c2 => rw [register_of_present avail c1 (by simp [hl])]; exact h
  | none => rw [register_of_absent avail c1 hl]; exact lookup_append_of_some h

theorem findAndBuildStep_of_elemOk (avail : List (String × CellClass)) (active : List Cell)
    (parse : String → Option Json) (fresh : Nat) (e : Elem)
    (h : elemOk avail parse e) :
    ∃ c, findAndBuildStep avail active parse fresh e = (.ok c, [.construct c.ref e.id]) := by
  obtain ⟨h1, s, hs, h2⟩ := h
  cases hl : List.lookup e.dataCell avail with
  | none => rw [hl] at h1; simp at h1
  | some ctor =>
    cases hv : parse s with
    | none => rw [hv] at h2; simp at h2
    | some v =>
      refine ⟨{ ref := fresh, element := some e.id, name := ctor.name, params := v }, ?_⟩
      have hc : Cell.construct parse ctor e fresh =
          .ok { ref := fresh, element := some e.id, name := ctor.name, params := v } := by
        unfold Cell.construct
        rw [hs]
        dsimp only
        rw [hv]
      rw [findAndBuildStep_eq, hl]
      dsimp only
      rw [hc]

theorem findAndBuild_append_error (avail : List (String × CellClass)) (active : List Cell)
    (parse : String → Option Json) :
    ∀ (pre : List Elem) (fresh : Nat) (l : List Elem) (err : CellError),
    (∀ p ∈ pre, elemOk avail parse p) →
    (findAndBuild avail active parse (fresh + pre.length) l).1 = .error err →
    (findAndBuild avail active parse fresh (pre ++ l)).1 = .error err := by
  intro pre
  induction pre with
  | nil => intro fresh l err _ h; simpa using h
  | cons p rest ih =>
    intro fresh l err hok h
    obtain ⟨c, hstep⟩ :=
      findAndBuildStep_of_elemOk avail active parse fresh p (hok p (by simp))
    rw [List.cons_append, findAndBuild, hstep]
    have hrec : (findAndBuild avail active parse ((fresh + 1) + rest.length) l).1 = .error err := by
      have harith : (fresh + 1) + rest.length = fresh + (rest.length + 1) := by omega
      rw [harith]
      simpa using h
    have hmain := ih (fresh + 1) l err (fun q hq => hok q (by simp [hq])) hrec
    rcases hr : findAndBuild avail active parse (fresh + 1) (rest ++ l) with ⟨r2, fresh2, evs2⟩
    rw [hr] at hmain
    cases r2 with
    | error err0 =>
      simp only [Except.error.injEq] at hmain
      subst hmain
      rfl
    | ok cs => simp at hmain

theorem findAndBuildStep_unknown (avail : List (String × CellClass)) (active : List Cell)
    (parse : String → Option Json) (fresh : Nat) (e : Elem)
    (h : List.lookup e.dataCell avail = none) :
    findAndBuildStep avail active parse fresh e = (.error (.unknownCellType e.dataCell), []) := by
  rw [findAndBuildStep_eq, h]

theorem findAndBuildStep_configParse (avail : List (String × CellClass)) (active : List Cell)
    (parse : String → Option Json) (fresh : Nat) (e : Elem) (ctor : CellClass)
    (hl : List.lookup e.dataCell avail = some ctor)
    (hbad : e.dataCellParams = none ∨ ∃ s, e.dataCellParams = some s ∧ parse s = none) :
    findAndBuildStep avail active parse fresh e = (.error (.configParse e.id), []) := by
  have hc : Cell.construct parse ctor e fresh = .error (.configParse e.id) := by
    unfold Cell.construct
    rcases hbad with hb | ⟨s, hs, hv⟩
    · rw [hb]
    · rw [hs]
      dsimp only
      rw [hv]
  rw [findAndBuildStep_eq, hl]
  dsimp only
  rw [hc]

theorem findAndBuild_head_error (avail : List (String × CellClass)) (active : List Cell)
    (parse : String → Option Json) (fresh : Nat) (e : Elem) (rest : List Elem)
    (err : CellError) (evs0 : List Event)
    (h : findAndBuildStep avail active parse fresh e = (.error err, evs0)) :
    (findAndBuild avail active parse fresh (e :: rest)).1 = .error err := by
  rw [findAndBuild, h]

theorem lookup_foldl_register (n : String) (c0 : CellClass) :
    ∀ (later : List CellClass) (avail : List (String × CellClass)),
    List.lookup n avail = some c0 →
    List.lookup n (later.foldl register avail) = some c0 := by
  intro later
  induction later with
  | nil => intro avail h; simpa using h
  | cons c cs ih => intro avail h; exact ih _ (lookup_register_preserved _ _ _ _ h)

end Builder

theorem countP_map_eq_one {α β : Type} [DecidableEq β] (f : α → β) :
    ∀ (l : List α) (b : β), (l.map f).Nodup → b ∈ l.map f →
    l.countP (fun a => decide (f a = b)) = 1 := by
  intro l
  induction l with
  | nil => intro b _ hb; simp at hb
  | cons x xs ih =>
    intro b hnd hb
    simp only [List.map_cons, List.nodup_cons] at hnd
    rw [List.countP_cons]
    by_cases hx : f x = b
    · subst hx
      have h0 : xs.countP (fun a => decide (f a = f x)) = 0 := by
        rw [List.countP_eq_zero]
        intro a ha
        simp only [decide_eq_true_eq]
        intro heq
        exact hnd.1 (heq ▸ List.mem_map_of_mem f ha)
      simp [h0]
    · have hb1 : b ∈ List.map f xs := by
        rcases List.mem_cons.mp hb with h | h
        · exact absurd h.symm hx
        · exact h
      rw [ih b hnd.2 hb1]
      simp [hx]

/-- C1: claimed identity preservation fails on the code.  Concrete run: the
registry holds `Foo`; element 1 carries `data-cell="Foo"` with parseable
configuration.  The first pass binds instance 0 to element 1.  A second
pass over the unchanged document tree does not carry instance 0 forward:
it constructs a fresh instance 1 for the same element, destroys instance
0, and never invokes any reload hook (because `findByElement` always
returns `undefined`). -/
theorem c1_reload_replaces_instance :
    Builder.initCells
        { activeCells := [], availableCells := [("Foo", fooClass)], fresh := 0 }
        [{ id := 1, dataCell := "Foo", dataCellParams := some "null" }] parseStub
      = (.ok (),
         { activeCells := [{ ref := 0, element := some 1, name := "Foo", params := Json.null }],
           availableCells := [("Foo", fooClass)], fresh := 1 },
         [.construct 0 1]) ∧
    Builder.reload
        { activeCells := [{ ref := 0, element := some 1, name := "Foo", params := Json.null }],
          availableCells := [("Foo", fooClass)], fresh := 1 }
        [{ id := 1, dataCell := "Foo", dataCellParams := some "null" }] parseStub
      = (.ok (),
         { activeCells := [{ ref := 1, element := some 1, name := "Foo", params := Json.null }],
           availableCells := [("Foo", fooClass)], fresh := 2 },
         [.construct 1 1, .destroyHook 0 none]) ∧
    Event.reloadHook 0 1 ∉ [Event.construct 1 1, Event.destroyHook 0 none] :=
  ⟨rfl, rfl, by decide⟩

/-- C2: claimed idempotence of `reload` fails on the code.  Concrete run:
one marker element, document tree unchanged between two passes.  The
second pass constructs a fresh instance (new identity 1), destroys the
instance from the first pass (identity 0), and invokes no reload hook —
instead of keeping the same instance and invoking its reload hook. -/
theorem c2_second_reload_cycles :
    Builder.reload
        { activeCells := [], availableCells := [("Bar", barClass)], fresh := 0 }
        [{ id := 2, dataCell := "Bar", dataCellParams := some "null" }] parseStub
      = (.ok (),
         { activeCells := [{ ref := 0, element := some 2, name := "Bar", params := Json.null }],
           availableCells := [("Bar", barClass)], fresh := 1 },
         [.construct 0 2]) ∧
    Builder.reload
        { activeCells := [{ ref := 0, element := some 2, name := "Bar", params := Json.null }],
          availableCells := [("Bar", barClass)], fresh := 1 }
        [{ id := 2, dataCell := "Bar", dataCellParams := some "null" }] parseStub
      = (.ok (),
         { activeCells := [{ ref := 1, element := some 2, name := "Bar", params := Json.null }],
           availableCells := [("Bar", barClass)], fresh := 2 },
         [.construct 1 2, .destroyHook 0 none]) ∧
    Event.reloadHook 0 2 ∉ [Event.construct 1 2, Event.destroyHook 0 none] ∧
    Event.destroyHook 0 none ∈ [Event.construct 1 2, Event.destroyHook 0 none] :=
  ⟨rfl, rfl, by decide, by decide⟩

/-- C3: after any successful `reload`, the LiveSet contains exactly one
instance whose `element` field equals each marker element of the document
tree (the tree's nodes being pairwise distinct), and no instance whose
element is absent from the tree. -/
theorem c3_liveset_matches_doc (st : Builder.State) (doc : List Elem)
    (parse : String → Option Json) (st1 : Builder.State) (evs : List Event)
    (hnd : (doc.map (fun e => e.id)).Nodup)
    (h : Builder.reload st doc parse = (.ok (), st1, evs)) :
    (∀ e ∈ doc, st1.activeCells.countP (fun c => decide (c.element = some e.id)) = 1) ∧
    (∀ c ∈ st1.activeCells, ∃ e ∈ doc, c.element = some e.id) := by
  obtain ⟨found, fresh1, cevs, hf, hst1, _⟩ := Builder.reload_ok st doc parse st1 evs h
  obtain ⟨hmap, _, _⟩ := Builder.findAndBuild_ok _ _ _ doc st.fresh found fresh1 cevs hf
  subst hst1
  have hmm : doc.map (fun e1 => some e1.id) = (doc.map (fun e1 => e1.id)).map some := by
    rw [List.map_map]
    rfl
  constructor
  · intro e he
    dsimp only
    apply countP_map_eq_one (fun c => c.element) found (some e.id)
    · rw [hmap, hmm]
      exact hnd.map (Option.some_injective Nat)
    · rw [hmap]
      exact List.mem_map_of_mem _ he
  · intro c hc
    dsimp only at hc
    have hm : c.element ∈ found.map (fun c1 => c1.element) := List.mem_map_of_mem _ hc
    rw [hmap] at hm
    obtain ⟨e, he, heq⟩ := List.mem_map.mp hm
    exact ⟨e, he, heq.symm⟩

/-- C3 witness: the theorem applied to a concrete one-element document. -/
theorem c3_witness :
    (∀ e ∈ [({ id := 1, dataCell := "Foo", dataCellParams := some "null" } : Elem)],
      List.countP (fun c => decide (c.element = some e.id))
        ({ activeCells := [{ ref := 0, element := some 1, name := "Foo", params := Json.null }],
           availableCells := [("Foo", fooClass)], fresh := 1 } : Builder.State).activeCells = 1) ∧
    (∀ c ∈ ({ activeCells := [{ ref := 0, element := some 1, name := "Foo", params := Json.null }],
              availableCells := [("Foo", fooClass)], fresh := 1 } : Builder.State).activeCells,
      ∃ e ∈ [({ id := 1, dataCell := "Foo", dataCellParams := some "null" } : Elem)],
        c.element = some e.id) :=
  c3_liveset_matches_doc
    { activeCells := [], availableCells := [("Foo", fooClass)], fresh := 0 }
    [{ id := 1, dataCell := "Foo", dataCellParams := some "null" }] parseStub
    { activeCells := [{ ref := 0, element := some 1, name := "Foo", params := Json.null }],
      availableCells := [("Foo", fooClass)], fresh := 1 }
    [.construct 0 1] (by decide) rfl

/-- C4: when `reload` fails, the previous LiveSet is untouched: the
post-state's `activeCells` equals the pre-state's, and no destroy hook was
invoked during the failed pass. -/
theorem c4_failed_reload_preserves_liveset (st : Builder.State) (doc : List Elem)
    (parse : String → Option Json) (err : CellError) (st1 : Builder.State) (evs : List Event)
    (h : Builder.reload st doc parse = (.error err, st1, evs)) :
    st1.activeCells = st.activeCells ∧ ∀ r a, Event.destroyHook r a ∉ evs := by
  obtain ⟨h1, h2⟩ := Builder.reload_error st doc parse err st1 evs h
  refine ⟨h1, ?_⟩
  intro r a hmem
  rw [h2] at hmem
  obtain ⟨r0, i0, heq⟩ := Builder.findAndBuild_events_construct _ _ _ doc st.fresh _ hmem
  simp at heq

/-- C4 witness: the theorem applied to a concrete failing pass (unknown
type `Baz`) over a non-empty previous LiveSet. -/
theorem c4_witness :
    ({ activeCells := [{ ref := 0, element := some 5, name := "Foo", params := Json.null }],
       availableCells := [("Foo", fooClass)], fresh := 1 } : Builder.State).activeCells
      = ({ activeCells := [{ ref := 0, element := some 5, name := "Foo", params := Json.null }],
           availableCells := [("Foo", fooClass)], fresh := 1 } : Builder.State).activeCells ∧
    ∀ r a, Event.destroyHook r a ∉ ([] : List Event) :=
  c4_failed_reload_preserves_liveset
    { activeCells := [{ ref := 0, element := some 5, name := "Foo", params := Json.null }],
      availableCells := [("Foo", fooClass)], fresh := 1 }
    [{ id := 3, dataCell := "Baz", dataCellParams := some "null" }] parseStub
    (.unknownCellType "Baz")
    { activeCells := [{ ref := 0, element := some 5, name := "Foo", params := Json.null }],
      availableCells := [("Foo", fooClass)], fresh := 1 }
    [] rfl

/-- C5: on a successful `reload`, every instance of the previous LiveSet
whose element is absent from the new document-tree snapshot has its
destroy hook invoked exactly once with no element argument, and no
instance of the new LiveSet has its identity.  The hypotheses state the
allocator invariant: previously live identities are pairwise distinct and
below the fresh counter. -/
theorem c5_orphan_destroyed_once (st : Builder.State) (doc : List Elem)
    (parse : String → Option Json) (st1 : Builder.State) (evs : List Event)
    (hwf : ∀ c ∈ st.activeCells, c.ref < st.fresh)
    (hnd : (st.activeCells.map (fun c => c.ref)).Nodup)
    (h : Builder.reload st doc parse = (.ok (), st1, evs))
    (c : Cell) (hc : c ∈ st.activeCells)
    (habs : ∀ e ∈ doc, c.element ≠ some e.id) :
    evs.count (.destroyHook c.ref none) = 1 ∧
    ∀ c1 ∈ st1.activeCells, c1.ref ≠ c.ref := by
  obtain ⟨found, fresh1, cevs, hf, hst1, hevs⟩ := Builder.reload_ok st doc parse st1 evs h
  obtain ⟨_, hrefs, _⟩ := Builder.findAndBuild_ok _ _ _ doc st.fresh found fresh1 cevs hf
  subst hst1
  subst hevs
  constructor
  · rw [List.count_append]
    have hzero : cevs.count (.destroyHook c.ref none) = 0 := by
      rw [List.count_eq_zero]
      intro hmem
      have hmem1 : Event.destroyHook c.ref none
          ∈ (Builder.findAndBuild st.availableCells st.activeCells parse st.fresh doc).2.2 := by
        rw [hf]
        exact hmem
      obtain ⟨r0, i0, heq⟩ :=
        Builder.findAndBuild_events_construct _ _ _ doc st.fresh _ hmem1
      simp at heq
    have hone : (st.activeCells.map (fun c1 => Event.destroyHook c1.ref none)).count
        (.destroyHook c.ref none) = 1 := by
      have hmm : st.activeCells.map (fun c1 => Event.destroyHook c1.ref none)
          = (st.activeCells.map (fun c1 => c1.ref)).map (fun r => Event.destroyHook r none) := by
        rw [List.map_map]
        rfl
      rw [hmm]
      have hinj : Function.Injective (fun r => Event.destroyHook r none) := by
        intro a b hab
        simpa using hab
      have hcount := List.count_map_of_injective
        (st.activeCells.map (fun c1 => c1.ref)) (fun r => Event.destroyHook r none) hinj c.ref
      rw [hcount]
      exact List.count_eq_one_of_mem hnd (List.mem_map_of_mem _ hc)
    rw [hzero, hone]
  · intro c1 hc1 heq
    dsimp only at hc1
    have hm : c1.ref ∈ found.map (fun c2 => c2.ref) := List.mem_map_of_mem _ hc1
    rw [hrefs] at hm
    rw [List.mem_range'_1] at hm
    have := hwf c hc
    omega

/-- C5 witness: the theorem applied to a concrete orphan (its element 5 is
absent from the empty new snapshot). -/
theorem c5_witness :
    ([Event.destroyHook 0 none] : List Event).count (.destroyHook 0 none) = 1 ∧
    ∀ c1 ∈ ({ activeCells := [], availableCells := [("Foo", fooClass)], fresh := 1 }
        : Builder.State).activeCells, c1.ref ≠ 0 :=
  c5_orphan_destroyed_once
    { activeCells := [{ ref := 0, element := some 5, name := "Foo", params := Json.null }],
      availableCells := [("Foo", fooClass)], fresh := 1 }
    [] parseStub
    { activeCells := [], availableCells := [("Foo", fooClass)], fresh := 1 }
    [.destroyHook 0 none]
    (by intro c hc; simp at hc; rw [hc]; exact Nat.zero_lt_one)
    (by simp)
    rfl
    { ref := 0, element := some 5, name := "Foo", params := Json.null }
    (by simp)
    (by simp)

/-- C6 counterexample: the claim as stated is false.  Element 2 names the
unregistered type `Baz`, yet `reload` fails with the configuration parse
error of the earlier element 1 — an error that does not identify the
offending type name. -/
theorem c6_counterexample :
    List.lookup "Baz" [("Foo", fooClass)] = none ∧
    (Builder.reload { activeCells := [], availableCells := [("Foo", fooClass)], fresh := 0 }
        [{ id := 1, dataCell := "Foo", dataCellParams := some "bad" },
         { id := 2, dataCell := "Baz", dataCellParams := some "null" }] parseStub).1
      = .error (.configParse 1) ∧
    (Except.error (.configParse 1) : Except CellError Unit) ≠ .error (.unknownCellType "Baz") :=
  ⟨rfl, rfl, by simp⟩

/-- C6 (amended): if a marker element's type name has no registered
constructor and every marker element preceding it resolves and has
parseable configuration, then `reload` (and hence the initial pass) fails
with an error identifying that type name, aborting the pass rather than
skipping the element. -/
theorem c6_unknown_type_aborts (st : Builder.State) (parse : String → Option Json)
    (pre rest : List Elem) (e : Elem)
    (hpre : ∀ p ∈ pre, Builder.elemOk st.availableCells parse p)
    (hmiss : List.lookup e.dataCell st.availableCells = none) :
    (Builder.reload st (pre ++ e :: rest) parse).1 = .error (.unknownCellType e.dataCell) := by
  apply Builder.reload_error_of_findAndBuild
  apply Builder.findAndBuild_append_error _ _ _ pre st.fresh (e :: rest) _ hpre
  exact Builder.findAndBuild_head_error _ _ _ _ _ _ _ _
    (Builder.findAndBuildStep_unknown _ _ _ _ _ hmiss)

/-- C6 witness: the amended theorem applied to a concrete document whose
second element names the unregistered type `Baz`. -/
theorem c6_witness :
    (Builder.reload { activeCells := [], availableCells := [("Foo", fooClass)], fresh := 0 }
        ([{ id := 1, dataCell := "Foo", dataCellParams := some "null" }] ++
          { id := 2, dataCell := "Baz", dataCellParams := some "null" } :: []) parseStub).1
      = .error (.unknownCellType "Baz") :=
  c6_unknown_type_aborts
    { activeCells := [], availableCells := [("Foo", fooClass)], fresh := 0 } parseStub
    [{ id := 1, dataCell := "Foo", dataCellParams := some "null" }] []
    { id := 2, dataCell := "Baz", dataCellParams := some "null" }
    (by
      intro p hp
      simp only [List.mem_singleton] at hp
      subst hp
      exact ⟨by decide, "null", rfl, by decide⟩)
    rfl

/-- C7: registration is first-write-wins.  With a type name not yet bound,
after `register c1` a second `register c2` under the same name is a no-op
that changes nothing in the table, and every subsequent resolution of the
name — after any further sequence of registrations — yields `c1`. -/
theorem c7_register_first_write_wins (avail : List (String × CellClass)) (c1 c2 : CellClass)
    (hname : c2.name = c1.name)
    (hfresh : List.lookup c1.name avail = none) :
    Builder.register (Builder.register avail c1) c2 = Builder.register avail c1 ∧
    ∀ (later : List CellClass),
      List.lookup c1.name
          (later.foldl Builder.register (Builder.register (Builder.register avail c1) c2))
        = some c1 := by
  have h1 : Builder.register avail c1 = avail ++ [(c1.name, c1)] :=
    Builder.register_of_absent _ _ hfresh
  have h2 : List.lookup c1.name (Builder.register avail c1) = some c1 := by
    rw [h1, Builder.lookup_append_of_none hfresh]
    simp [List.lookup]
  have h3 : Builder.register (Builder.register avail c1) c2 = Builder.register avail c1 :=
    Builder.register_of_present _ _ (by rw [hname, h2]; rfl)
  refine ⟨h3, ?_⟩
  intro later
  rw [h3]
  exact Builder.lookup_foldl_register c1.name c1 later _ h2

/-- C7 witness: two distinct constructor objects both named `Foo`,
registered into the empty table, followed by one more registration. -/
theorem c7_witness :
    Builder.register (Builder.register [] fooClass) { name := "Foo", ctorId := 1 }
      = Builder.register [] fooClass ∧
    ∀ (later : List CellClass),
      List.lookup "Foo"
          (later.foldl Builder.register
            (Builder.register (Builder.register [] fooClass) { name := "Foo", ctorId := 1 }))
        = some fooClass :=
  c7_register_first_write_wins [] fooClass { name := "Foo", ctorId := 1 } rfl rfl

/-- C8: `Cell.destroy` first clears the instance's `element` reference,
then invokes the `onDestroy` hook — a no-op when undefined — with the
argument it was given (the hook observes the already-cleared instance),
then returns that argument; afterwards (with no hook, or at hook entry)
the instance retains no reference to its former element. -/
theorem c8_destroy_clears_element (self : Cell) (e : Option Nat)
    (hook : Option Nat → Cell → Cell) :
    Cell.destroy none self e = ({ self with element := none }, e) ∧
    Cell.destroy (some hook) self e = (hook e { self with element := none }, e) ∧
    (Cell.destroy none self e).1.element = none :=
  ⟨rfl, rfl, rfl⟩

/-- C9: construction requires a present, parseable configuration
attribute: a missing attribute or a failed parse makes `Cell.construct`
fail with a configuration error, which in turn fails the enclosing
reconciliation pass (when the failing element is reached); on success the
parsed value is stored in the instance's `params` field. -/
theorem c9_config_mandatory (parse : String → Option Json) (ctor : CellClass) (e : Elem)
    (fresh : Nat) :
    (e.dataCellParams = none →
      Cell.construct parse ctor e fresh = .error (.configParse e.id)) ∧
    (∀ s, e.dataCellParams = some s → parse s = none →
      Cell.construct parse ctor e fresh = .error (.configParse e.id)) ∧
    (∀ s v, e.dataCellParams = some s → parse s = some v →
      Cell.construct parse ctor e fresh
        = .ok { ref := fresh, element := some e.id, name := ctor.name, params := v }) ∧
    (∀ (st : Builder.State) (pre rest : List Elem),
      (∀ p ∈ pre, Builder.elemOk st.availableCells parse p) →
      List.lookup e.dataCell st.availableCells = some ctor →
      (e.dataCellParams = none ∨ ∃ s, e.dataCellParams = some s ∧ parse s = none) →
      (Builder.reload st (pre ++ e :: rest) parse).1 = .error (.configParse e.id)) := by
  refine ⟨?_, ?_, ?_, ?_⟩
  · intro h
    unfold Cell.construct
    rw [h]
  · intro s hs hv
    unfold Cell.construct
    rw [hs]
    dsimp only
    rw [hv]
  · intro s v hs hv
    unfold Cell.construct
    rw [hs]
    dsimp only
    rw [hv]
  · intro st pre rest hpre hl hbad
    apply Builder.reload_error_of_findAndBuild
    apply Builder.findAndBuild_append_error _ _ _ pre st.fresh _ _ hpre
    exact Builder.findAndBuild_head_error _ _ _ _ _ _ _ _
      (Builder.findAndBuildStep_configParse _ _ _ _ _ _ hl hbad)

/-- C9 witness: the theorem applied to concrete elements with a missing
attribute, an unparseable attribute, a parseable attribute, and a failing
pass. -/
theorem c9_witness :
    Cell.construct parseStub fooClass { id := 7, dataCell := "Foo", dataCellParams := none } 0
      = .error (.configParse 7) ∧
    Cell.construct parseStub fooClass { id := 8, dataCell := "Foo", dataCellParams := some "bad" } 0
      = .error (.configParse 8) ∧
    Cell.construct parseStub fooClass { id := 9, dataCell := "Foo", dataCellParams := some "null" } 3
      = .ok { ref := 3, element := some 9, name := "Foo", params := Json.null } ∧
    (Builder.reload { activeCells := [], availableCells := [("Foo", fooClass)], fresh := 0 }
        ([] ++ { id := 9, dataCell := "Foo", dataCellParams := some "bad" } :: []) parseStub).1
      = .error (.configParse 9) :=
  ⟨(c9_config_mandatory parseStub fooClass _ 0).1 rfl,
   (c9_config_mandatory parseStub fooClass _ 0).2.1 "bad" rfl rfl,
   (c9_config_mandatory parseStub fooClass _ 3).2.2.1 "null" Json.null rfl rfl,
   (c9_config_mandatory parseStub fooClass _ 0).2.2.2
     { activeCells := [], availableCells := [("Foo", fooClass)], fresh := 0 } [] []
     (by intro p hp; simp at hp) rfl (Or.inr ⟨"bad", rfl, rfl⟩)⟩

/-- C10: `findByElement` returns `none` for every element argument and
every cell list — in particular also when the list contains a cell whose
`element` field equals the argument — because the source function
evaluates the lookup but never returns its value. -/
theorem c10_findByElement_always_none (element : Option Nat) (cells : List Cell) :
    Builder.findByElement element cells = none := rfl
